/-
Verification of the cursordance-bot core (src/cursor.py) against its
natural-language specification.

Shallow embedding conventions:
  * Python floats are modelled exactly: a float value is a fraction
    `PyQ` (integer numerator/denominator, never normalised, so that every
    operation is a plain integer computation the kernel can evaluate), and
    `PyQ.val : PyQ → ℚ` reads off the rational value.  All fractions the
    model constructs have nonzero denominator; on those, the `PyQ`
    comparison operations agree with the rational order (proved below), so
    the embedding is faithful to exact real arithmetic on the literals the
    program manipulates.  `int(x)` truncation toward zero is `pyTrunc`.
  * Python strings are modelled as `String` / `List Char`; `str.split`,
    `str.strip`, `in` (substring) and `str.lower` are re-implemented as
    structurally recursive functions with the same behaviour on the ASCII
    text that occurs in chart files and window titles.
  * `int(s)` / `float(s)` are modelled on plain decimal literals
    (optional sign, digits, optional fractional part), which covers every
    literal the chart grammar produces; a failed conversion is `none`,
    matching the `try/except` line-dropping of the parser.
  * transcendental library calls (`math.sin`, `math.cos`, `math.pi`,
    `math.sqrt`) are passed in as an explicit `PyMath` record of functions
    on `PyQ`, so every definition stays computable; no claim depends on
    their values.
-/
import Mathlib

set_option maxRecDepth 40000

namespace CursorBot

/-! ### Exact model of Python float values -/

/-- A Python float value, kept as an exact (unnormalised) fraction so that
all arithmetic is kernel-computable integer arithmetic. -/
structure PyQ where
  n : ℤ
  d : ℤ
deriving DecidableEq

instance (m : ℕ) : OfNat PyQ m := ⟨⟨(m : ℤ), 1⟩⟩

namespace PyQ

/-- Embed an integer. -/
def ofInt (k : ℤ) : PyQ := ⟨k, 1⟩

/-- Negation. -/
def neg (a : PyQ) : PyQ := ⟨-a.n, a.d⟩

/-- Addition of fractions. -/
def add (a b : PyQ) : PyQ := ⟨a.n * b.d + b.n * a.d, a.d * b.d⟩

/-- Subtraction of fractions. -/
def sub (a b : PyQ) : PyQ := ⟨a.n * b.d - b.n * a.d, a.d * b.d⟩

/-- Multiplication of fractions. -/
def mul (a b : PyQ) : PyQ := ⟨a.n * b.n, a.d * b.d⟩

/-- Division of fractions. -/
def div (a b : PyQ) : PyQ := ⟨a.n * b.d, a.d * b.n⟩

/-- Value comparison `a <= b`, by cross multiplication with the squares of
the denominators (so the direction is right whatever their signs). -/
def le (a b : PyQ) : Bool := decide (a.n * a.d * (b.d * b.d) ≤ b.n * b.d * (a.d * a.d))

/-- Value comparison `a < b`. -/
def lt (a b : PyQ) : Bool := decide (a.n * a.d * (b.d * b.d) < b.n * b.d * (a.d * a.d))

/-- Value equality `a == b` (cross multiplication). -/
def beq (a b : PyQ) : Bool := decide (a.n * b.d = b.n * a.d)

/-- Python `min` of two floats. -/
def pmin (a b : PyQ) : PyQ := if le a b then a else b

/-- Python `max` of two floats. -/
def pmax (a b : PyQ) : PyQ := if le b a then a else b

/-- Python `abs` of a float. -/
def pabs (a : PyQ) : PyQ := if lt a 0 then neg a else a

/-- The rational value of a fraction. -/
def val (a : PyQ) : ℚ := (a.n : ℚ) / (a.d : ℚ)

theorem val_ofInt (k : ℤ) : val (ofInt k) = (k : ℚ) := by
  simp [val, ofInt]

theorem val_ofNat (m : ℕ) : val (OfNat.ofNat m) = (m : ℚ) := by
  show ((m : ℤ) : ℚ) / ((1 : ℤ) : ℚ) = (m : ℚ)
  norm_num

theorem val_neg (a : PyQ) : val (neg a) = -val a := by
  simp [val, neg, neg_div]

theorem val_add {a b : PyQ} (ha : a.d ≠ 0) (hb : b.d ≠ 0) :
    val (add a b) = val a + val b := by
  have ha' : (a.d : ℚ) ≠ 0 := Int.cast_ne_zero.mpr ha
  have hb' : (b.d : ℚ) ≠ 0 := Int.cast_ne_zero.mpr hb
  simp only [val, add]
  push_cast
  field_simp

theorem val_sub {a b : PyQ} (ha : a.d ≠ 0) (hb : b.d ≠ 0) :
    val (sub a b) = val a - val b := by
  have ha' : (a.d : ℚ) ≠ 0 := Int.cast_ne_zero.mpr ha
  have hb' : (b.d : ℚ) ≠ 0 := Int.cast_ne_zero.mpr hb
  simp only [val, sub]
  push_cast
  field_simp
  all_goals ring

theorem val_mul (a b : PyQ) : val (mul a b) = val a * val b := by
  simp only [val, mul]
  push_cast
  rw [div_mul_div_comm]

theorem val_div (a b : PyQ) : val (div a b) = val a / val b := by
  simp only [val, div]
  push_cast
  rcases eq_or_ne (a.d : ℚ) 0 with h | h
  · simp [h]
  rcases eq_or_ne (b.n : ℚ) 0 with h2 | h2
  · simp [h2]
  rcases eq_or_ne (b.d : ℚ) 0 with h3 | h3
  · simp [h3]
  field_simp

theorem le_iff {a b : PyQ} (ha : a.d ≠ 0) (hb : b.d ≠ 0) :
    le a b = true ↔ val a ≤ val b := by
  have ha' : (0 : ℚ) < (a.d : ℚ) ^ 2 := by positivity
  have hb' : (0 : ℚ) < (b.d : ℚ) ^ 2 := by positivity
  have hva : val a = ((a.n * a.d : ℤ) : ℚ) / ((a.d : ℚ) ^ 2) := by
    have h0 : (a.d : ℚ) ≠ 0 := Int.cast_ne_zero.mpr ha
    rw [val]
    push_cast
    field_simp
    ring
  have hvb : val b = ((b.n * b.d : ℤ) : ℚ) / ((b.d : ℚ) ^ 2) := by
    have h0 : (b.d : ℚ) ≠ 0 := Int.cast_ne_zero.mpr hb
    rw [val]
    push_cast
    field_simp
    ring
  rw [le, decide_eq_true_iff, hva, hvb, div_le_div_iff ha' hb']
  rw [show ((a.n * a.d : ℤ) : ℚ) * ((b.d : ℚ) ^ 2) =
      ((a.n * a.d * (b.d * b.d) : ℤ) : ℚ) by push_cast; ring]
  rw [show ((b.n * b.d : ℤ) : ℚ) * ((a.d : ℚ) ^ 2) =
      ((b.n * b.d * (a.d * a.d) : ℤ) : ℚ) by push_cast; ring]
  exact Int.cast_le.symm

theorem lt_iff {a b : PyQ} (ha : a.d ≠ 0) (hb : b.d ≠ 0) :
    lt a b = true ↔ val a < val b := by
  have hab : lt a b = !(le b a) := by
    rw [lt, le, ← decide_not, decide_eq_decide]
    exact not_le.symm
  have h := le_iff hb ha
  rw [hab, Bool.not_eq_true']
  constructor
  · intro hf
    refine not_le.mp (fun hv => ?_)
    rw [h.mpr hv] at hf
    simp at hf
  · intro hv
    by_contra hne
    have ht : le b a = true := by
      revert hne
      cases le b a <;> simp
    exact absurd (h.mp ht) (not_le.mpr hv)

theorem beq_iff {a b : PyQ} (ha : a.d ≠ 0) (hb : b.d ≠ 0) :
    beq a b = true ↔ val a = val b := by
  have ha' : (a.d : ℚ) ≠ 0 := Int.cast_ne_zero.mpr ha
  have hb' : (b.d : ℚ) ≠ 0 := Int.cast_ne_zero.mpr hb
  rw [beq, decide_eq_true_iff, val, val, div_eq_div_iff ha' hb']
  constructor
  · intro h
    exact_mod_cast congrArg (fun k : ℤ => (k : ℚ)) h
  · intro h
    exact_mod_cast h

end PyQ

/-- Python `int(...)` applied to a float value: truncation toward zero. -/
def pyTrunc (q : PyQ) : ℤ := Int.tdiv q.n q.d

/-! ### String utilities (Python `str` operations) -/

/-- Python `str.split(sep)` for a one-character separator, on char lists.
`splitOnChar c []` is `[[]]`, matching `''.split(sep) == ['']`. -/
def splitOnChar (c : Char) : List Char → List (List Char)
  | [] => [[]]
  | a :: rest =>
    match splitOnChar c rest with
    | [] => [[]]
    | h :: t => if a = c then [] :: h :: t else (a :: h) :: t

/-- Python `str.strip()`: drop whitespace from both ends. -/
def stripWs (cs : List Char) : List Char :=
  ((cs.dropWhile Char.isWhitespace).reverse.dropWhile Char.isWhitespace).reverse

/-- Value of a nonempty all-digit character list, else `none`. -/
def digitsVal (cs : List Char) : Option ℕ :=
  if cs ≠ [] ∧ cs.all Char.isDigit then
    some (cs.foldl (fun a c => a * 10 + (c.toNat - 48)) 0)
  else none

/-- Python `int(s)` on a decimal-literal string (optional sign, digits);
`none` models the `ValueError` that makes the parser drop the line. -/
def pyInt (s : List Char) : Option ℤ :=
  match stripWs s with
  | [] => none
  | c :: rest =>
    if c = '-' then (digitsVal rest).map (fun n => -(n : ℤ))
    else if c = '+' then (digitsVal rest).map (fun n => (n : ℤ))
    else (digitsVal (c :: rest)).map (fun n => (n : ℤ))

/-- Helper for `pyFloat`: unsigned decimal literal (digits, optional "." and
fraction digits; at least one digit overall), as an exact fraction with
denominator a power of ten. -/
def decimalVal (cs : List Char) : Option PyQ :=
  match splitOnChar '.' cs with
  | [a] => (digitsVal a).map (fun m => ⟨(m : ℤ), 1⟩)
  | [a, b] =>
    if a = [] ∧ b = [] then none
    else if a.all Char.isDigit ∧ b.all Char.isDigit then
      some ⟨((a.foldl (fun acc c => acc * 10 + (c.toNat - 48)) 0 : ℕ) : ℤ) * 10 ^ b.length +
        ((b.foldl (fun acc c => acc * 10 + (c.toNat - 48)) 0 : ℕ) : ℤ), (10 : ℤ) ^ b.length⟩
    else none
  | _ => none

/-- Python `float(s)` on a decimal-literal string; `none` models the
`ValueError` that makes the parser drop the line. -/
def pyFloat (s : List Char) : Option PyQ :=
  match stripWs s with
  | [] => none
  | c :: rest =>
    if c = '-' then (decimalVal rest).map PyQ.neg
    else if c = '+' then decimalVal rest
    else decimalVal (c :: rest)

/-- Bit test on Python's arbitrary-precision integers (`n & 2^k != 0`),
expressed with floor division so that negative values match Python's
two's-complement semantics. -/
def pyBitSet (n : ℤ) (k : ℕ) : Bool := Int.fdiv n (2 ^ k) % 2 == 1

/-- Prefix test on char lists (Python `str.startswith`). -/
def listIsPre : List Char → List Char → Bool
  | [], _ => true
  | _ :: _, [] => false
  | p :: ps, c :: cs => p == c && listIsPre ps cs

/-- Python substring containment `pat in s`. -/
def containsSub (pat : List Char) : List Char → Bool
  | [] => listIsPre pat []
  | c :: cs => listIsPre pat (c :: cs) || containsSub pat cs

/-- Python `str.lower()` (ASCII case folding, which covers the titles the
monitor classifies). -/
def pyLower (cs : List Char) : List Char := cs.map Char.toLower

/-- Denominators produced by `pyFloat` are positive (a power of ten). -/
theorem pyFloat_d_pos {s : List Char} {q : PyQ} (h : pyFloat s = some q) : 0 < q.d := by
  have base : ∀ cs r, decimalVal cs = some r → 0 < r.d := by
    intro cs r hr
    rw [decimalVal] at hr
    split at hr
    · simp only [Option.map_eq_some'] at hr
      obtain ⟨m, _, hm⟩ := hr
      rw [← hm]
      norm_num
    · split_ifs at hr with h1 h2
      all_goals try (rw [Option.some.injEq] at hr; rw [← hr]; positivity)
    · exact Option.noConfusion hr
  rw [pyFloat] at h
  split at h
  all_goals try exact Option.noConfusion h
  all_goals split_ifs at h
  all_goals try exact base _ _ h
  all_goals
    (rw [Option.map_eq_some'] at h
     obtain ⟨r, hr, hq⟩ := h
     have hpos := base _ _ hr
     rw [← hq]
     simpa [PyQ.neg] using hpos)

/-! ### Chart parser data model (`TimingPoint`, `HitObject` dataclasses) -/

/-- `TimingPoint` dataclass of `cursor.py`. -/
structure TimingPoint where
  time : PyQ
  beat_length : PyQ
  meter : ℤ
  sample_set : ℤ
  sample_index : ℤ
  volume : ℤ
  uninherited : Bool
  effects : ℤ
deriving DecidableEq

/-- `HitObject` dataclass of `cursor.py` (`repeat` is `repeatCount` here
because `repeat` is reserved in Lean). -/
structure HitObject where
  x : ℤ
  y : ℤ
  time : PyQ
  type : ℤ
  hit_sound : ℤ
  slider_type : Option (List Char) := none
  slider_points : List (ℤ × ℤ) := []
  repeatCount : ℤ := 1
  pixel_length : PyQ := ⟨0, 1⟩
  end_time : Option PyQ := none
deriving DecidableEq

/-- `int(parts[i]) if len(parts) > i else dflt` — an optional positional
field with a default; a present but malformed field fails (dropping the
line). -/
def optInt (parts : List (List Char)) (i : ℕ) (dflt : ℤ) : Option ℤ :=
  match parts[i]? with
  | some p => pyInt p
  | none => some dflt

/-- `float(parts[i]) if len(parts) > i else dflt`, as `optInt`. -/
def optFloat (parts : List (List Char)) (i : ℕ) (dflt : PyQ) : Option PyQ :=
  match parts[i]? with
  | some p => pyFloat p
  | none => some dflt

/-- `int(parts[6]) == 1 if len(parts) > 6 else True`. -/
def optUninherited (parts : List (List Char)) : Option Bool :=
  match parts[6]? with
  | some p => (pyInt p).map (fun n => n == 1)
  | none => some true

/-- One iteration of the `[TimingPoints]` line loop in
`OsuBeatmapParser._parse_timing_points`: strip, skip blank and `//` lines,
split on commas, require at least two fields, convert with positional
defaults; any conversion failure (`ValueError`) drops the line. -/
def parseTimingPointLine (line : String) : Option TimingPoint := do
  let cs := stripWs line.toList
  if cs = [] ∨ listIsPre ['/', '/'] cs then none else
  let parts := splitOnChar ',' cs
  if parts.length < 2 then none else
  let time ← pyFloat (← parts[0]?)
  let beat_length ← pyFloat (← parts[1]?)
  let meter ← optInt parts 2 4
  let sample_set ← optInt parts 3 0
  let sample_index ← optInt parts 4 0
  let volume ← optInt parts 5 50
  let uninherited ← optUninherited parts
  let effects ← optInt parts 7 0
  some ⟨time, beat_length, meter, sample_set, sample_index, volume, uninherited, effects⟩

/-- `_parse_timing_points` over the section's lines. -/
def parseTimingPoints (lines : List String) : List TimingPoint :=
  lines.filterMap parseTimingPointLine

/-- The timing-point scan in `_parse_hit_objects`:
`for tp in self.timing_points: if tp.time <= time and tp.uninherited:
active_timing = tp` — i.e. the LAST point in parsed order whose time is at
or before the object's time and whose uninherited flag is set. -/
def findActiveTiming (tps : List TimingPoint) (t : PyQ) : Option TimingPoint :=
  tps.foldl (fun acc tp => if PyQ.le tp.time t && tp.uninherited then some tp else acc) none

/-- The tempo-point selection as the specification words it: the uninherited
tempo point with the LATEST time among those with time at or before `t`
(defined only to compare the spec's wording against `findActiveTiming`). -/
def specLatestUninherited (tps : List TimingPoint) (t : PyQ) : Option TimingPoint :=
  (tps.filter (fun tp => tp.uninherited && PyQ.le tp.time t)).foldl
    (fun acc tp =>
      match acc with
      | none => some tp
      | some a => if PyQ.le a.time tp.time then some tp else some a) none

/-- Slider end-time computation of `_parse_hit_objects`: with an active
uninherited timing point of positive beat length, duration is
`(pixel_length / (100·sliderMultiplier)) · beat_length · repeat`; otherwise
the fallback `(pixel_length/100)·600`.  A zero-valued multiplier makes the
division raise `ZeroDivisionError`, dropping the line, hence `none`. -/
def sliderEndTime (tps : List TimingPoint) (sm t pl : PyQ) (rep : ℤ) : Option PyQ :=
  match findActiveTiming tps t with
  | some tp =>
    if PyQ.lt 0 tp.beat_length then
      if (PyQ.mul 100 sm).n = 0 then none
      else some (t.add (((pl.div (PyQ.mul 100 sm)).mul tp.beat_length).mul (PyQ.ofInt rep)))
    else some (t.add ((pl.div 100).mul 600))
  | none => some (t.add ((pl.div 100).mul 600))

/-- Slider path sub-grammar: for each `|`-separated part containing a `:`,
`px, py = map(int, part.split(':'))` — exactly two integer fields, anything
else raises and drops the whole line; parts without `:` are skipped. -/
def parseSliderPoints : List (List Char) → Option (List (ℤ × ℤ))
  | [] => some []
  | p :: rest =>
    if p.contains ':' then
      match splitOnChar ':' p with
      | [a, b] => do
        let pa ← pyInt a
        let pb ← pyInt b
        let r ← parseSliderPoints rest
        some ((pa, pb) :: r)
      | _ => none
    else parseSliderPoints rest

/-- Slider branch (`obj_type & 2`) of `_parse_hit_objects`; yields no object
when the line has no sixth field. -/
def mkSlider (tps : List TimingPoint) (sm : PyQ) (x y : ℤ) (t : PyQ) (hs : ℤ)
    (parts : List (List Char)) : Option HitObject := do
  match parts[5]? with
  | none => none
  | some sdata =>
    let sparts := splitOnChar '|' sdata
    let stype := sparts.headD []
    let pts ← parseSliderPoints sparts.tail
    let rep ← optInt parts 6 1
    let pl ← optFloat parts 7 ⟨0, 1⟩
    let endT ← sliderEndTime tps sm t pl rep
    some { x := x, y := y, time := t, type := 2, hit_sound := hs,
           slider_type := some stype, slider_points := pts,
           repeatCount := rep, pixel_length := pl, end_time := some endT }

/-- Spinner branch (`obj_type & 8`): end time from the sixth field, defaulting
to `time + 1000`; position pinned to the playfield centre (256,192). -/
def mkSpin (t : PyQ) (hs : ℤ) (parts : List (List Char)) : Option HitObject := do
  let endT ← optFloat parts 5 (t.add 1000)
  some { x := 256, y := 192, time := t, type := 8, hit_sound := hs,
         end_time := some endT }

/-- One iteration of the `[HitObjects]` line loop in `_parse_hit_objects`:
strip, skip blank and `//` lines, split on commas, require at least four
fields, dispatch on the type bitmask (bit0 circle / bit1 slider / bit3
spinner); any conversion failure drops the line, unmatched masks yield no
object. -/
def parseHitObjectLine (tps : List TimingPoint) (sm : PyQ) (line : String) :
    Option HitObject := do
  let cs := stripWs line.toList
  if cs = [] ∨ listIsPre ['/', '/'] cs then none else
  let parts := splitOnChar ',' cs
  if parts.length < 4 then none else
  let x ← pyInt (← parts[0]?)
  let y ← pyInt (← parts[1]?)
  let t ← pyFloat (← parts[2]?)
  let objType ← pyInt (← parts[3]?)
  let hs ← optInt parts 4 0
  if pyBitSet objType 0 then
    some { x := x, y := y, time := t, type := 1, hit_sound := hs }
  else if pyBitSet objType 1 then
    mkSlider tps sm x y t hs parts
  else if pyBitSet objType 3 then
    mkSpin t hs parts
  else none

/-- `_parse_hit_objects` over the section's lines. -/
def parseHitObjects (tps : List TimingPoint) (sm : PyQ) (lines : List String) :
    List HitObject :=
  lines.filterMap (parseHitObjectLine tps sm)

/-- The final `self.hit_objects.sort(key=lambda obj: obj.time)` of
`OsuBeatmapParser.parse`.  Python's sort is the stable ascending sort; the
stable sort of a list is unique, so insertion sort computes the same list. -/
def sortByTime (objs : List HitObject) : List HitObject :=
  objs.insertionSort (fun a b => PyQ.le a.time b.time = true)

/-- `OsuBeatmapParser.parse` restricted to the parts the claims are about:
the timing-point and hit-object section lines are fed to their line loops
(the regex section extraction merely slices the file into those line lists)
and the object list is sorted by time.  `sm` is the chart's
`SliderMultiplier` difficulty value (default 1.4). -/
def parseChart (timingLines hitLines : List String) (sm : PyQ) : List HitObject :=
  sortByTime (parseHitObjects (parseTimingPoints timingLines) sm hitLines)

/-! ### Encoding detection in `OsuBeatmapParser.parse` -/

/-- The latin-1 codec: every byte 0–255 decodes to the code point of the same
value, so decoding a byte sequence always succeeds. -/
def latin1Decode (bs : List (Fin 256)) : List Char :=
  bs.map (fun b => Char.ofNat b.val)

/-- The encoding-fallback loop of `OsuBeatmapParser.parse`:
`for encoding in ['utf-8', 'utf-8-sig', 'cp1251', 'latin1']` tries each codec
in order, breaking on the first that does not raise `UnicodeDecodeError`; the
`for/else` returns failure if none succeeded.  The first three codecs are
partial functions of the file bytes (passed in abstractly — their exact
behaviour is the Python codec library's); latin-1 is total and is modelled
concretely.  The result is `none` exactly on the undecodable-file branch. -/
def detectDecode (utf8 utf8sig cp1251 : List (Fin 256) → Option (List Char))
    (bs : List (Fin 256)) : Option (List Char) :=
  match utf8 bs with
  | some c => some c
  | none =>
    match utf8sig bs with
    | some c => some c
    | none =>
      match cp1251 bs with
      | some c => some c
      | none => some (latin1Decode bs)

/-! ### `OsuWindowMonitor` (window-title state machine) -/

/-- `OsuWindowMonitor._analyze_window_title`: classify a window title as
"editing", "selecting", "playing" or "menu". -/
def analyze_window_title (title : List Char) : List Char :=
  let title_lower := pyLower title
  if containsSub ['e','d','i','t'] title_lower then
    ['e','d','i','t','i','n','g']
  else if containsSub ['s','o','n','g',' ','s','e','l','e','c','t'] title_lower ||
      title = ['o','s','u','!'] then
    ['s','e','l','e','c','t','i','n','g']
  else if title.contains '[' && title.contains ']' then
    if !containsSub ['m','e','n','u'] title_lower &&
        !containsSub ['e','d','i','t'] title_lower &&
        !containsSub ['s','e','l','e','c','t'] title_lower then
      ['p','l','a','y','i','n','g']
    else ['m','e','n','u']
  else ['m','e','n','u']

/-- `OsuWindowMonitor._extract_beatmap_info`: strip a leading "osu! - " and
then a leading "edit - " from the title. -/
def extract_beatmap_info (title : List Char) : List Char :=
  if listIsPre ['o','s','u','!',' ','-',' '] title then
    let beatmap_name := title.drop 7
    if listIsPre ['e','d','i','t',' ','-',' '] beatmap_name then
      stripWs (beatmap_name.drop 7)
    else stripWs beatmap_name
  else title

/-- `self.required_stable_frames = 3`. -/
def required_stable_frames : ℕ := 3

/-- Mutable state of `OsuWindowMonitor` (`last_title`, `last_state`,
`stable_counter`). -/
structure MonitorState where
  last_title : List Char
  last_state : List Char
  stable_counter : ℕ
deriving DecidableEq

/-- Initial monitor state from `OsuWindowMonitor.__init__`
(`last_title = ""`, `last_state = "menu"`, `stable_counter = 0`). -/
def initialMonitorState : MonitorState := ⟨[], ['m','e','n','u'], 0⟩

/-- One iteration of `OsuWindowMonitor._monitor_loop` for an observed window
title: nothing happens unless the title changed; on a change classified
"playing" while the previous state was not "playing" the stability counter
is incremented and, at the threshold, the callback fires (returned as the
list of callback arguments) and the counter resets; any non-"playing"
classification resets the counter. -/
def monitorStep (st : MonitorState) (title : List Char) :
    MonitorState × List (List Char) :=
  if title = st.last_title then (st, [])
  else
    let new_state := analyze_window_title title
    if new_state = ['p','l','a','y','i','n','g'] ∧
        st.last_state ≠ ['p','l','a','y','i','n','g'] then
      let c := st.stable_counter + 1
      if required_stable_frames ≤ c then
        (⟨title, new_state, 0⟩, [extract_beatmap_info title])
      else
        (⟨title, new_state, c⟩, [])
    else
      let c := if new_state ≠ ['p','l','a','y','i','n','g'] then 0
               else st.stable_counter
      (⟨title, new_state, c⟩, [])

/-- The monitor loop over a sequence of observed titles, collecting every
callback invocation. -/
def monitorRun (st : MonitorState) : List (List Char) →
    MonitorState × List (List Char)
  | [] => (st, [])
  | t :: rest =>
    ((monitorRun (monitorStep st t).1 rest).1,
     (monitorStep st t).2 ++ (monitorRun (monitorStep st t).1 rest).2)

/-! ### `RelaxBot` (playback scheduler) -/

/-- Screen/playfield scaling constants of `cursor.py`:
`SCALE_X = 1920/512`, `SCALE_Y = 1080/384` (exact float divisions). -/
def SCALE_X : PyQ := PyQ.div 1920 512

/-- See `SCALE_X`. -/
def SCALE_Y : PyQ := PyQ.div 1080 384

/-- `HIT_WINDOW_100 = 100.0` (the "medium" window half-width). -/
def HIT_WINDOW_100 : PyQ := 100

/-- `HIT_WINDOW_300 = 50.0` (the "high" window half-width). -/
def HIT_WINDOW_300 : PyQ := 50

/-- `PERFECT_WINDOW = 30.0`. -/
def PERFECT_WINDOW : PyQ := 30

/-- The two logical input channels: keys z and x. -/
inductive Vk
  | z
  | x
deriving DecidableEq

/-- `RelaxBot.toggle_key`: alternate between the z and x channels. -/
def toggle_key : Vk → Vk
  | .z => .x
  | .x => .z

/-- Observable input-sink and pointer-sink actions emitted by the bot. -/
inductive BotEv
  | press (k : Vk)
  | release (k : Vk)
  | scheduleRelease
  | moveTo (x y : ℤ)
deriving DecidableEq

/-- The `math` library calls the bot makes, as abstract functions on exact
values (their numerics are external to the program under verification). -/
structure PyMath where
  sin : PyQ → PyQ
  cos : PyQ → PyQ
  pi : PyQ
  sqrt : PyQ → PyQ

/-- The run-scoped mutable state of `RelaxBot` that the playback loop and
`stop` read and write. -/
structure BotState where
  running : Bool
  paused : Bool
  waiting_mode : Bool
  clicked_objects : List PyQ
  current_vk : Vk
  key_pressed : Bool
  active_slider : Option HitObject
  current_position : PyQ × PyQ
  target_position : PyQ × PyQ
  velocity : PyQ × PyQ
deriving DecidableEq

/-- Membership of a float value in the `clicked_objects` set
(`obj.time in self.clicked_objects`). -/
def containsVal (l : List PyQ) (q : PyQ) : Bool := l.any (fun v => PyQ.beq v q)

/-- `self.clicked_objects.add(obj.time)` on the set modelled as a
duplicate-free list in insertion order. -/
def setAdd (l : List PyQ) (q : PyQ) : List PyQ :=
  if containsVal l q then l else l ++ [q]

/-- `RelaxBot.press_key`: press the current channel's key unless a key is
already held. -/
def press_key (st : BotState) : BotState × List BotEv :=
  if st.key_pressed then (st, [])
  else ({st with key_pressed := true}, [BotEv.press st.current_vk])

/-- `RelaxBot.release_key`: release the held key and alternate channels;
a no-op when nothing is held. -/
def release_key (st : BotState) : BotState × List BotEv :=
  if st.key_pressed then
    ({st with key_pressed := false, current_vk := toggle_key st.current_vk},
     [BotEv.release st.current_vk])
  else (st, [])

/-- `RelaxBot.click_circle`: press and schedule a 50 ms delayed release
(`threading.Timer(0.05, self.release_key)`), recorded as an event. -/
def click_circle (st : BotState) : BotState × List BotEv :=
  let (st', evs) := press_key st
  (st', evs ++ [BotEv.scheduleRelease])

/-- `RelaxBot.start_slider`: remember the active slider and press-and-hold. -/
def start_slider (obj : HitObject) (st : BotState) : BotState × List BotEv :=
  press_key {st with active_slider := some obj}

/-- `RelaxBot.end_slider`: release the held key and clear the active
slider. -/
def end_slider (st : BotState) : BotState × List BotEv :=
  let (st', evs) := release_key st
  ({st' with active_slider := none}, evs)

/-- `RelaxBot.should_click`: symmetric hit window around the object time,
selected by the accuracy mode ("perfect" ±30, "high" ±50, anything else
±100). -/
def should_click (accuracy_mode : String) (obj : HitObject) (current_time : PyQ) :
    Bool :=
  let time_diff := obj.time.sub current_time
  if accuracy_mode = "perfect" then
    PyQ.le (PyQ.neg PERFECT_WINDOW) time_diff && PyQ.le time_diff PERFECT_WINDOW
  else if accuracy_mode = "high" then
    PyQ.le (PyQ.neg HIT_WINDOW_300) time_diff && PyQ.le time_diff HIT_WINDOW_300
  else
    PyQ.le (PyQ.neg HIT_WINDOW_100) time_diff && PyQ.le time_diff HIT_WINDOW_100

/-- `RelaxBot.calculate_dance_offset`: the idle-decoration offset, an
oscillation selected by the dance style, scaled by the configured intensity
and by how far away the next object is (the `obj` parameter of the Python
method is unused there). -/
def calculate_dance_offset (m : PyMath) (dance_style : String)
    (dance_intensity : PyQ) (current_time time_until : PyQ) : ℤ × ℤ :=
  let intensity := (PyQ.mul 15 dance_intensity)
  let t := current_time.div 400
  let distance_factor := PyQ.pmin (time_until.div 500) 1
  let intensity := intensity.mul distance_factor
  if dance_style = "flow" then
    (pyTrunc ((m.sin (t.mul ⟨12, 10⟩)).mul intensity),
     pyTrunc ((m.cos (t.mul ⟨15, 10⟩)).mul intensity))
  else if dance_style = "wave" then
    (pyTrunc ((m.sin (t.mul ⟨15, 10⟩)).mul intensity),
     pyTrunc (((m.sin ((t.mul ⟨15, 10⟩).add (m.pi.div 3))).mul intensity).mul ⟨7, 10⟩))
  else if dance_style = "circular" then
    let radius := intensity.mul ⟨8, 10⟩
    (pyTrunc ((m.cos (t.mul 2)).mul radius),
     pyTrunc ((m.sin (t.mul 2)).mul radius))
  else
    (pyTrunc ((m.sin (t.mul 3)).mul intensity),
     pyTrunc ((m.cos (t.mul ⟨25, 10⟩)).mul intensity))

/-- `RelaxBot.calculate_target_position`: the scaled literal position of the
object, decorated with the dance offset — at full strength more than 150 ms
before the trigger, linearly faded between 150 ms and 50 ms, and absent at
50 ms or less. -/
def calculate_target_position (m : PyMath) (dance_style : String)
    (dance_intensity : PyQ) (obj : HitObject) (current_time : PyQ) : ℤ × ℤ :=
  let base_x := pyTrunc ((PyQ.ofInt obj.x).mul SCALE_X)
  let base_y := pyTrunc ((PyQ.ofInt obj.y).mul SCALE_Y)
  let time_until := obj.time.sub current_time
  if PyQ.lt 150 time_until then
    let off := calculate_dance_offset m dance_style dance_intensity current_time time_until
    (base_x + off.1, base_y + off.2)
  else if PyQ.lt 50 time_until then
    let intensity_scale := (time_until.sub 50).div 100
    let off := calculate_dance_offset m dance_style dance_intensity current_time time_until
    (base_x + pyTrunc ((PyQ.ofInt off.1).mul intensity_scale),
     base_y + pyTrunc ((PyQ.ofInt off.2).mul intensity_scale))
  else
    (base_x, base_y)

/-- `RelaxBot.get_slider_position`: position linearly interpolated between
the slider origin and its first path anchor by the elapsed fraction of
`[time, endTime]`, clamped to [0,1].  Python's `if not obj.end_time` is true
both for `None` and for the float `0.0`. -/
def get_slider_position (obj : HitObject) (current_time : PyQ) :
    Option (ℤ × ℤ) :=
  match obj.end_time with
  | none => none
  | some e =>
    if PyQ.beq e 0 then none
    else
      let progress := (current_time.sub obj.time).div (e.sub obj.time)
      let progress := PyQ.pmax 0 (PyQ.pmin 1 progress)
      match obj.slider_points with
      | [] => some (pyTrunc ((PyQ.ofInt obj.x).mul SCALE_X),
                    pyTrunc ((PyQ.ofInt obj.y).mul SCALE_Y))
      | ep :: _ =>
        some (pyTrunc (((PyQ.ofInt obj.x).add ((PyQ.ofInt (ep.1 - obj.x)).mul progress)).mul SCALE_X),
              pyTrunc (((PyQ.ofInt obj.y).add ((PyQ.ofInt (ep.2 - obj.y)).mul progress)).mul SCALE_Y))

/-- `self.spinner_rpm = 477.0`. -/
def spinner_rpm : PyQ := 477

/-- `RelaxBot.spin_cursor`: rotational target on a radius-120 circle around
the screen centre (960, 540), with a small radius perturbation; friction is
relaxed (velocity scaled by 0.95). -/
def spin_cursor (m : PyMath) (current_time : PyQ) (st : BotState) : BotState :=
  let angle := ((current_time.mul spinner_rpm).div 1000).mul ((PyQ.mul 2 m.pi))
  let radius_variation := (m.sin (angle.mul 3)).mul 5
  let actual_radius := (PyQ.ofInt 120).add radius_variation
  let target_x := pyTrunc ((PyQ.ofInt 960).add (actual_radius.mul (m.cos angle)))
  let target_y := pyTrunc ((PyQ.ofInt 540).add (actual_radius.mul (m.sin angle)))
  {st with target_position := (PyQ.ofInt target_x, PyQ.ofInt target_y),
           velocity := (st.velocity.1.mul ⟨95, 100⟩, st.velocity.2.mul ⟨95, 100⟩)}

/-- `RelaxBot.update_cursor_physics`: accelerate toward the target, apply
friction, clamp speed, advance, decelerate in the 50-unit approach zone,
clamp to the screen, and move the pointer. -/
def update_cursor_physics (m : PyMath) (st : BotState) : BotState × List BotEv :=
  let dx := st.target_position.1.sub st.current_position.1
  let dy := st.target_position.2.sub st.current_position.2
  let distance := m.sqrt ((dx.mul dx).add (dy.mul dy))
  if PyQ.lt distance 5 then (st, [])
  else
    let dir_x := if PyQ.lt 0 distance then dx.div distance else 0
    let dir_y := if PyQ.lt 0 distance then dy.div distance else 0
    let acceleration_strength := (PyQ.pmin (distance.div 100) 1).mul ⟨35, 10⟩
    let vx := (st.velocity.1.add (dir_x.mul acceleration_strength)).mul ⟨85, 100⟩
    let vy := (st.velocity.2.add (dir_y.mul acceleration_strength)).mul ⟨85, 100⟩
    let speed := m.sqrt ((vx.mul vx).add (vy.mul vy))
    let scale := (PyQ.ofInt 50).div speed
    let vx := if PyQ.lt 50 speed then vx.mul scale else vx
    let vy := if PyQ.lt 50 speed then vy.mul scale else vy
    let px := st.current_position.1.add vx
    let py := st.current_position.2.add vy
    let decel := distance.div 50
    let vx := if PyQ.lt distance 50 then vx.mul decel else vx
    let vy := if PyQ.lt distance 50 then vy.mul decel else vy
    let px := PyQ.pmax 0 (PyQ.pmin 1920 px)
    let py := PyQ.pmax 0 (PyQ.pmin 1080 py)
    ({st with current_position := (px, py), velocity := (vx, vy)},
     [BotEv.moveTo (pyTrunc px) (pyTrunc py)])

/-- Per-object input-trigger logic of `RelaxBot.bot_loop` (the body of the
clicks loop): circles click inside the hit window; sliders start a hold when
clickable and no hold is active, and while this object is the active hold,
release at `endTime` or override the motion target with the interpolated
slider position; spinners hold-and-spin inside `[time, endTime]` and
release-and-consume from `endTime` on. -/
def processObject (m : PyMath) (accuracy_mode : String) (current_time : PyQ)
    (st : BotState) (od : HitObject × PyQ) : BotState × List BotEv :=
  let obj := od.1
  let time_diff := od.2
  if obj.type = 1 then
    if should_click accuracy_mode obj current_time then
      let (st1, evs) := click_circle st
      ({st1 with clicked_objects := setAdd st1.clicked_objects obj.time}, evs)
    else (st, [])
  else if obj.type = 2 then
    let (st1, evs1) :=
      if should_click accuracy_mode obj current_time && st.active_slider.isNone then
        let (s, e) := start_slider obj st
        ({s with clicked_objects := setAdd s.clicked_objects obj.time}, e)
      else (st, [])
    match st1.active_slider with
    | some s =>
      if PyQ.beq s.time obj.time then
        match obj.end_time with
        | some e =>
          if PyQ.le e current_time then
            let (st2, evs2) := end_slider st1
            (st2, evs1 ++ evs2)
          else
            match get_slider_position obj current_time with
            | some p => ({st1 with target_position := (PyQ.ofInt p.1, PyQ.ofInt p.2)}, evs1)
            | none => (st1, evs1)
        | none => (st1, evs1)
      else (st1, evs1)
    | none => (st1, evs1)
  else if obj.type = 8 then
    match obj.end_time with
    | some e =>
      if PyQ.le time_diff 0 && PyQ.lt current_time e then
        let (st1, evs1) := if !st.key_pressed then press_key st else (st, [])
        (spin_cursor m current_time st1, evs1)
      else if PyQ.le e current_time && !(containsVal st.clicked_objects obj.time) then
        let (st1, evs1) := if st.key_pressed then release_key st else (st, [])
        ({st1 with clicked_objects := setAdd st1.clicked_objects obj.time}, evs1)
      else (st, [])
    | none => (st, [])
  else (st, [])

/-- One iteration of the `while` body of `RelaxBot.bot_loop` in the running,
unpaused, osu-window-active case: collect the active set (unconsumed objects
within `[-200, 800]` ms of now), sort it by distance-to-click, aim at the
nearest object, advance the cursor physics, then run the input-trigger logic
over the active set. -/
def tick (m : PyMath) (accuracy_mode dance_style : String) (dance_intensity : PyQ)
    (hit_objects : List HitObject) (st : BotState) (current_time : PyQ) :
    BotState × List BotEv :=
  let active_objects := hit_objects.filterMap (fun obj =>
    if containsVal st.clicked_objects obj.time then none
    else
      let time_diff := obj.time.sub current_time
      if PyQ.le (PyQ.neg 200) time_diff && PyQ.le time_diff 800 then
        some (obj, time_diff)
      else none)
  let active_objects := active_objects.insertionSort
    (fun a b => PyQ.le (PyQ.pabs a.2) (PyQ.pabs b.2) = true)
  let st := match active_objects with
    | [] => st
    | (nearest_obj, _) :: _ =>
      let tp := calculate_target_position m dance_style dance_intensity nearest_obj current_time
      {st with target_position := (PyQ.ofInt tp.1, PyQ.ofInt tp.2)}
  let (st, moveEvs) := update_cursor_physics m st
  let (st, clickEvs) := active_objects.foldl
    (fun acc od =>
      let (st', evs) := processObject m accuracy_mode current_time acc.1 od
      (st', acc.2 ++ evs))
    (st, ([] : List BotEv))
  (st, moveEvs ++ clickEvs)

/-- A run of consecutive ticks at the given clock values. -/
def runTicks (m : PyMath) (accuracy_mode dance_style : String)
    (dance_intensity : PyQ) (hit_objects : List HitObject) :
    BotState → List PyQ → BotState × List BotEv
  | st, [] => (st, [])
  | st, t :: rest =>
    let (st', evs) := tick m accuracy_mode dance_style dance_intensity hit_objects st t
    let (st'', evs') := runTicks m accuracy_mode dance_style dance_intensity hit_objects st' rest
    (st'', evs ++ evs')

/-- `RelaxBot.stop`: clear the run flags, release the held key directly
through the input helper (without alternating channels), and shut the
monitor down.  The release is emitted before the function returns. -/
def stop (st : BotState) : BotState × List BotEv :=
  let st1 := {st with running := false, waiting_mode := false, paused := false}
  if st1.key_pressed then
    ({st1 with key_pressed := false}, [BotEv.release st1.current_vk])
  else (st1, [])

/-! ### Concrete fixtures used by the claim theorems -/

/-- A concrete interpretation of the `math` library (the claims below hold
for every interpretation; this one is used for closed evaluations). -/
def dummyMath : PyMath := ⟨fun _ => 0, fun _ => 0, 0, fun _ => 0⟩

/-- The run-scoped state as `RelaxBot.start` resets it (keys cleared, z
channel, no hold, empty consumed set, cursor at the screen centre). -/
def initBot : BotState :=
  { running := true, paused := false, waiting_mode := false,
    clicked_objects := [], current_vk := .z, key_pressed := false,
    active_slider := none,
    current_position := (960, 540), target_position := (960, 540),
    velocity := (0, 0) }

/-- A parsed slider: time 1000 ms, end time 1500 ms, one path anchor. -/
def sObj : HitObject :=
  { x := 0, y := 0, time := ⟨1000, 1⟩, type := 2, hit_sound := 0,
    slider_type := some ['B'], slider_points := [(50, 50)],
    repeatCount := 1, pixel_length := ⟨140, 1⟩, end_time := some ⟨1500, 1⟩ }

/-- A parsed spinner: time 1000 ms, end time 2000 ms. -/
def pObj : HitObject :=
  { x := 256, y := 192, time := ⟨1000, 1⟩, type := 8, hit_sound := 0,
    end_time := some ⟨2000, 1⟩ }

/-- The slider the round-trip chart of C4/C5 parses to (time 1000 ms,
length 140, repeat 1; end time value 1500 ms). -/
def rObj : HitObject :=
  { x := 0, y := 0, time := ⟨1000, 1⟩, type := 2, hit_sound := 0,
    slider_type := some ['B'], slider_points := [(100, 0)], repeatCount := 1,
    pixel_length := ⟨140, 1⟩, end_time := some ⟨1050000, 700⟩ }

/-- A concrete Tap at the playfield centre, time 1000 ms. -/
def cObj : HitObject :=
  { x := 256, y := 192, time := ⟨1000, 1⟩, type := 1, hit_sound := 0 }

/-! ### C1: the window-monitor debounce -/

/-- The monitor-loop invariant: the stability counter never exceeds 1, and it
is 1 only when the recorded state is already "playing".  (The counter is
incremented only on a transition into "playing", after which `last_state`
is "playing"; leaving "playing" resets it to zero.) -/
def MonitorInv (st : MonitorState) : Prop :=
  st.stable_counter ≤ 1 ∧
    (st.stable_counter = 1 → st.last_state = ['p','l','a','y','i','n','g'])

theorem monitorStep_inv {st : MonitorState} (hinv : MonitorInv st)
    (title : List Char) :
    (monitorStep st title).2 = [] ∧ MonitorInv (monitorStep st title).1 := by
  obtain ⟨hle, hone⟩ := hinv
  simp only [monitorStep]
  split_ifs with h1 h2 h3 h4
  · exact ⟨rfl, hle, hone⟩
  · -- a transition into "playing" fired: impossible, the counter was 0
    exfalso
    have hc0 : st.stable_counter = 0 := by
      rcases Nat.eq_zero_or_pos st.stable_counter with h | h
      · exact h
      · exact absurd (hone (by omega)) h2.2
    have h3' : (3 : ℕ) ≤ st.stable_counter + 1 := by
      simpa [required_stable_frames] using h3
    omega
  · -- a transition into "playing" below the threshold: increment, no event
    have hc0 : st.stable_counter = 0 := by
      rcases Nat.eq_zero_or_pos st.stable_counter with h | h
      · exact h
      · exact absurd (hone (by omega)) h2.2
    refine ⟨rfl, ?_, fun _ => h2.1⟩
    show st.stable_counter + 1 ≤ 1
    omega
  · -- a non-"playing" classification: counter reset, no event
    exact ⟨rfl, Nat.zero_le 1, fun hc => absurd (show (0 : ℕ) = 1 from hc) (by omega)⟩
  · -- "playing" with the previous state already "playing": counter kept
    refine ⟨rfl, hle, fun hc => ?_⟩
    push_neg at h4
    exact h4

theorem monitorRun_inv {st : MonitorState} (hinv : MonitorInv st) :
    ∀ titles : List (List Char), (monitorRun st titles).2 = [] := by
  intro titles
  induction titles generalizing st with
  | nil => rfl
  | cons t rest ih =>
    rw [monitorRun]
    obtain ⟨hnil, hinv'⟩ := monitorStep_inv hinv t
    simp only [hnil, List.nil_append]
    exact ih hinv'

/-- C1: the spec says a non-Playing state followed by at least 3 consecutive
Playing-classified observations fires the detection callback exactly once,
on the 3rd such observation.  In the code the stability counter is
incremented only on observations whose previous recorded state was not
"playing" — and any such increment immediately records "playing", so the
counter can never exceed 1 and never reaches the threshold 3: the callback
is never invoked, on any observation sequence. -/
theorem C1_monitor_never_fires (titles : List (List Char)) :
    (monitorRun initialMonitorState titles).2 = [] :=
  monitorRun_inv (by refine ⟨?_, ?_⟩ <;> simp [initialMonitorState]) titles

/-! ### C2 / C3: hold and spin release behaviour of the playback loop -/

/-- C2: the spec says an active Hold is released (and the active-hold
reference cleared) on the first tick with `currentTime >= endTime`, with the
motion target path-interpolated while the hold is active.  In the code the
slider's time is added to the consumed set on the tick that starts the hold,
so every later tick filters the slider out of the active set and the
release/interpolation branch is never reached again: over ticks at 1000,
1100, 1500 and 1600 ms of a slider `[1000, 1500]`, the only input event is
the initial press — the key is still held and the active-hold reference
still set after `endTime` has passed. -/
theorem C2_hold_release_never_happens :
    (runTicks dummyMath "perfect" "flow" ⟨5, 10⟩ [sObj] initBot
        [⟨1000, 1⟩, ⟨1100, 1⟩, ⟨1500, 1⟩, ⟨1600, 1⟩]).2 = [BotEv.press Vk.z] ∧
    (runTicks dummyMath "perfect" "flow" ⟨5, 10⟩ [sObj] initBot
        [⟨1000, 1⟩, ⟨1100, 1⟩, ⟨1500, 1⟩, ⟨1600, 1⟩]).1.key_pressed = true ∧
    (runTicks dummyMath "perfect" "flow" ⟨5, 10⟩ [sObj] initBot
        [⟨1000, 1⟩, ⟨1100, 1⟩, ⟨1500, 1⟩, ⟨1600, 1⟩]).1.active_slider = some sObj := by
  decide

/-- C3: the spec says a Spin holds the input throughout `[time, endTime]`
and releases and consumes at `endTime`.  In the code a spinner drops out of
the active window `[-200, 800]` once `currentTime` exceeds `time + 200`, so
for a spinner `[1000, 2000]` the ticks at 1300, 2000 and 2100 ms do nothing:
the input is never released, the object is never consumed, and the
rotational target is not driven between 1200 ms and `endTime`. -/
theorem C3_spin_release_never_happens :
    (runTicks dummyMath "perfect" "flow" ⟨5, 10⟩ [pObj] initBot
        [⟨1000, 1⟩, ⟨1300, 1⟩, ⟨2000, 1⟩, ⟨2100, 1⟩]).2 = [BotEv.press Vk.z] ∧
    (runTicks dummyMath "perfect" "flow" ⟨5, 10⟩ [pObj] initBot
        [⟨1000, 1⟩, ⟨1300, 1⟩, ⟨2000, 1⟩, ⟨2100, 1⟩]).1.key_pressed = true ∧
    (runTicks dummyMath "perfect" "flow" ⟨5, 10⟩ [pObj] initBot
        [⟨1000, 1⟩, ⟨1300, 1⟩, ⟨2000, 1⟩, ⟨2100, 1⟩]).1.clicked_objects = [] := by
  decide

/-! ### C6: `stop` releases any held input -/

/-- C6: if `stop()` is called while a key is held (a Hold active), exactly
one release of the held channel is emitted before it returns, and no input
is held afterwards; when nothing is held, no release is emitted and still
nothing is held on exit. -/
theorem C6_stop_releases_held_input (st : BotState) :
    (st.key_pressed = true →
      (stop st).2 = [BotEv.release st.current_vk] ∧ (stop st).1.key_pressed = false) ∧
    (st.key_pressed = false → (stop st).2 = [] ∧ (stop st).1.key_pressed = false) := by
  constructor
  · intro h
    simp [stop, h]
  · intro h
    simp [stop, h]

/-- Witness for C6 at a concrete held state. -/
theorem C6_stop_releases_held_input_witness :
    (stop {initBot with key_pressed := true, active_slider := some sObj}).2 =
        [BotEv.release Vk.z] ∧
    (stop {initBot with key_pressed := true, active_slider := some sObj}).1.key_pressed = false :=
  (C6_stop_releases_held_input {initBot with key_pressed := true, active_slider := some sObj}).1
    (by decide)

/-! ### C7: nesting of the accuracy hit windows -/

/-- C7: an object clickable under "perfect" accuracy (±30 ms) is clickable
under "high" (±50 ms) and "medium" (±100 ms): the three symmetric windows
are nested. -/
theorem C7_accuracy_windows_nested (obj : HitObject) (current_time : PyQ)
    (h : should_click "perfect" obj current_time = true) :
    should_click "high" obj current_time = true ∧
      should_click "medium" obj current_time = true := by
  have hp : should_click "perfect" obj current_time =
      (PyQ.le (PyQ.neg PERFECT_WINDOW) (obj.time.sub current_time) &&
        PyQ.le (obj.time.sub current_time) PERFECT_WINDOW) := rfl
  have hh : should_click "high" obj current_time =
      (PyQ.le (PyQ.neg HIT_WINDOW_300) (obj.time.sub current_time) &&
        PyQ.le (obj.time.sub current_time) HIT_WINDOW_300) := rfl
  have hm : should_click "medium" obj current_time =
      (PyQ.le (PyQ.neg HIT_WINDOW_100) (obj.time.sub current_time) &&
        PyQ.le (obj.time.sub current_time) HIT_WINDOW_100) := rfl
  rw [hp, Bool.and_eq_true] at h
  obtain ⟨h1, h2⟩ := h
  have hdd := mul_self_nonneg (obj.time.sub current_time).d
  have h1' : (-30 : ℤ) * 1 * ((obj.time.sub current_time).d * (obj.time.sub current_time).d) ≤
      (obj.time.sub current_time).n * (obj.time.sub current_time).d * (1 * 1) :=
    of_decide_eq_true h1
  have h2' : (obj.time.sub current_time).n * (obj.time.sub current_time).d * (1 * 1) ≤
      (30 : ℤ) * 1 * ((obj.time.sub current_time).d * (obj.time.sub current_time).d) :=
    of_decide_eq_true h2
  constructor
  · rw [hh, Bool.and_eq_true]
    constructor
    · exact decide_eq_true (show (-50 : ℤ) * 1 * ((obj.time.sub current_time).d * (obj.time.sub current_time).d) ≤
        (obj.time.sub current_time).n * (obj.time.sub current_time).d * (1 * 1) by nlinarith)
    · exact decide_eq_true (show (obj.time.sub current_time).n * (obj.time.sub current_time).d * (1 * 1) ≤
        (50 : ℤ) * 1 * ((obj.time.sub current_time).d * (obj.time.sub current_time).d) by nlinarith)
  · rw [hm, Bool.and_eq_true]
    constructor
    · exact decide_eq_true (show (-100 : ℤ) * 1 * ((obj.time.sub current_time).d * (obj.time.sub current_time).d) ≤
        (obj.time.sub current_time).n * (obj.time.sub current_time).d * (1 * 1) by nlinarith)
    · exact decide_eq_true (show (obj.time.sub current_time).n * (obj.time.sub current_time).d * (1 * 1) ≤
        (100 : ℤ) * 1 * ((obj.time.sub current_time).d * (obj.time.sub current_time).d) by nlinarith)

/-- Witness for C7: a Tap 20 ms before its time is clickable under all three
accuracy modes. -/
theorem C7_accuracy_windows_nested_witness :
    should_click "high" {x := 256, y := 192, time := ⟨1000, 1⟩, type := 1, hit_sound := 0} ⟨980, 1⟩ = true ∧
    should_click "medium" {x := 256, y := 192, time := ⟨1000, 1⟩, type := 1, hit_sound := 0} ⟨980, 1⟩ = true :=
  C7_accuracy_windows_nested
    {x := 256, y := 192, time := ⟨1000, 1⟩, type := 1, hit_sound := 0} ⟨980, 1⟩ (by decide)

/-! ### C8: the idle-decoration fade of the motion target -/

/-- C8: for a Tap or Hold the motion target is the scaled literal position
plus the full idle-decoration offset while more than 150 ms remain until the
trigger, plus the offset scaled by `(remaining - 50)/100` (linearly from 1
down to 0) while between 150 ms and 50 ms remain, and exactly the scaled
literal position at 50 ms or less. -/
theorem C8_idle_decoration_fade (m : PyMath) (dance_style : String)
    (dance_intensity : PyQ) (obj : HitObject) (current_time : PyQ)
    (htd : obj.time.d ≠ 0) (hcd : current_time.d ≠ 0) :
    (150 < PyQ.val obj.time - PyQ.val current_time →
      calculate_target_position m dance_style dance_intensity obj current_time =
        (pyTrunc ((PyQ.ofInt obj.x).mul SCALE_X) +
            (calculate_dance_offset m dance_style dance_intensity current_time
              (obj.time.sub current_time)).1,
         pyTrunc ((PyQ.ofInt obj.y).mul SCALE_Y) +
            (calculate_dance_offset m dance_style dance_intensity current_time
              (obj.time.sub current_time)).2)) ∧
    (50 < PyQ.val obj.time - PyQ.val current_time →
      PyQ.val obj.time - PyQ.val current_time ≤ 150 →
      calculate_target_position m dance_style dance_intensity obj current_time =
        (pyTrunc ((PyQ.ofInt obj.x).mul SCALE_X) +
            pyTrunc ((PyQ.ofInt (calculate_dance_offset m dance_style dance_intensity current_time
                (obj.time.sub current_time)).1).mul
              (((obj.time.sub current_time).sub 50).div 100)),
         pyTrunc ((PyQ.ofInt obj.y).mul SCALE_Y) +
            pyTrunc ((PyQ.ofInt (calculate_dance_offset m dance_style dance_intensity current_time
                (obj.time.sub current_time)).2).mul
              (((obj.time.sub current_time).sub 50).div 100)))) ∧
    (PyQ.val obj.time - PyQ.val current_time ≤ 50 →
      calculate_target_position m dance_style dance_intensity obj current_time =
        (pyTrunc ((PyQ.ofInt obj.x).mul SCALE_X),
         pyTrunc ((PyQ.ofInt obj.y).mul SCALE_Y))) := by
  have hsub : (obj.time.sub current_time).d ≠ 0 := by
    show obj.time.d * current_time.d ≠ 0
    exact mul_ne_zero htd hcd
  have hvsub : PyQ.val (obj.time.sub current_time) =
      PyQ.val obj.time - PyQ.val current_time := PyQ.val_sub htd hcd
  have h150 : PyQ.lt 150 (obj.time.sub current_time) = true ↔
      150 < PyQ.val obj.time - PyQ.val current_time := by
    rw [PyQ.lt_iff (by decide) hsub, hvsub, PyQ.val_ofNat]
    norm_num
  have h50 : PyQ.lt 50 (obj.time.sub current_time) = true ↔
      50 < PyQ.val obj.time - PyQ.val current_time := by
    rw [PyQ.lt_iff (by decide) hsub, hvsub, PyQ.val_ofNat]
    norm_num
  refine ⟨fun h => ?_, fun h h' => ?_, fun h => ?_⟩
  · have hb : PyQ.lt 150 (obj.time.sub current_time) = true := h150.mpr h
    simp only [calculate_target_position, hb]
    rfl
  · have hb : PyQ.lt 150 (obj.time.sub current_time) = false := by
      rw [Bool.eq_false_iff]
      intro hx
      exact absurd (h150.mp hx) (not_lt.mpr h')
    have hb' : PyQ.lt 50 (obj.time.sub current_time) = true := h50.mpr h
    simp only [calculate_target_position, hb, hb']
    rfl
  · have hb : PyQ.lt 150 (obj.time.sub current_time) = false := by
      rw [Bool.eq_false_iff]
      intro hx
      have := h150.mp hx
      linarith
    have hb' : PyQ.lt 50 (obj.time.sub current_time) = false := by
      rw [Bool.eq_false_iff]
      intro hx
      have := h50.mp hx
      linarith
    simp only [calculate_target_position, hb, hb']
    rfl

/-- Witness for C8 at a concrete Tap 40 ms before its trigger: the target is
exactly the scaled literal position. -/
theorem C8_idle_decoration_fade_witness :
    calculate_target_position dummyMath "flow" ⟨5, 10⟩
        {x := 256, y := 192, time := ⟨1000, 1⟩, type := 1, hit_sound := 0} ⟨960, 1⟩ =
      (pyTrunc ((PyQ.ofInt 256).mul SCALE_X), pyTrunc ((PyQ.ofInt 192).mul SCALE_Y)) :=
  (C8_idle_decoration_fade dummyMath "flow" ⟨5, 10⟩
      {x := 256, y := 192, time := ⟨1000, 1⟩, type := 1, hit_sound := 0} ⟨960, 1⟩
      (by decide) (by decide)).2.2 (by norm_num [PyQ.val])

/-! ### C9: input-channel alternation on release -/

/-- C9 counterexample: `stop` on a held state emits a successful release of
the held input but leaves the logical channel unchanged (it releases through
the input helper directly, not through `release_key`), so not every
successful release toggles the channel. -/
theorem C9_counterexample :
    (stop {initBot with key_pressed := true}).2 = [BotEv.release Vk.z] ∧
    (stop {initBot with key_pressed := true}).1.current_vk = Vk.z := by
  decide

/-- C9 (amended): every successful release performed by `release_key` —
the path every object-triggered release takes — toggles the logical channel
between z and x and leaves no key held, so consecutive triggered objects
alternate channels; the forced release in `stop` does not toggle. -/
theorem C9_release_key_toggles (st : BotState) (h : st.key_pressed = true) :
    (release_key st).2 = [BotEv.release st.current_vk] ∧
    (release_key st).1.current_vk = toggle_key st.current_vk ∧
    (release_key st).1.current_vk ≠ st.current_vk ∧
    (release_key st).1.key_pressed = false := by
  refine ⟨?_, ?_, ?_, ?_⟩ <;> simp [release_key, h]
  cases st.current_vk <;> simp [toggle_key]

/-- Witness for C9 at a concrete held state on channel z. -/
theorem C9_release_key_toggles_witness :
    (release_key {initBot with key_pressed := true}).2 = [BotEv.release Vk.z] ∧
    (release_key {initBot with key_pressed := true}).1.current_vk = toggle_key Vk.z ∧
    (release_key {initBot with key_pressed := true}).1.current_vk ≠ Vk.z ∧
    (release_key {initBot with key_pressed := true}).1.key_pressed = false :=
  C9_release_key_toggles {initBot with key_pressed := true} (by decide)

/-! ### C10: encoding detection never fails -/

/-- C10: whatever the first three codecs (utf-8, utf-8-sig, cp1251) do on
the file bytes, the fallback chain ends with latin-1, which decodes every
byte sequence, so encoding detection always succeeds and the
undecodable-file failure branch of `parse` is unreachable. -/
theorem C10_encoding_detection_total
    (utf8 utf8sig cp1251 : List (Fin 256) → Option (List Char))
    (bs : List (Fin 256)) :
    (detectDecode utf8 utf8sig cp1251 bs).isSome = true := by
  rw [detectDecode]
  cases hu : utf8 bs with
  | some c => rfl
  | none =>
    cases hs : utf8sig bs with
    | some c => rfl
    | none =>
      cases hc : cp1251 bs with
      | some c => rfl
      | none => rfl

/-! ### Parser inversion lemmas (for C4 and C5) -/

/-- A value produced by `optFloat` with a positive-denominator default has a
positive denominator. -/
theorem optFloat_d_pos {parts : List (List Char)} {i : ℕ} {dflt q : PyQ}
    (hd : 0 < dflt.d) (h : optFloat parts i dflt = some q) : 0 < q.d := by
  rw [optFloat] at h
  split at h
  · exact pyFloat_d_pos h
  · rw [Option.some.injEq] at h
    rw [← h]
    exact hd

/-- Both float fields of a parsed timing point have positive denominators. -/
theorem parseTimingPointLine_d_pos {line : String} {tp : TimingPoint}
    (h : parseTimingPointLine line = some tp) :
    0 < tp.time.d ∧ 0 < tp.beat_length.d := by
  rw [parseTimingPointLine] at h
  simp only [] at h
  split_ifs at h with h1 h2
  simp only [bind, Option.bind_eq_some, Option.some.injEq] at h
  obtain ⟨p0, hp0, t, ht, p1, hp1, bl, hbl, me, hme, ss, hss, si, hsi, vo, hvo, un, hun,
    ef, hef, heq⟩ := h
  rw [← heq]
  exact ⟨pyFloat_d_pos ht, pyFloat_d_pos hbl⟩

/-- Every parsed timing point has positive-denominator float fields. -/
theorem parseTimingPoints_d_pos {lines : List String} {tp : TimingPoint}
    (h : tp ∈ parseTimingPoints lines) :
    0 < tp.time.d ∧ 0 < tp.beat_length.d := by
  rw [parseTimingPoints] at h
  obtain ⟨line, _, hline⟩ := List.mem_filterMap.mp h
  exact parseTimingPointLine_d_pos hline

/-- The active timing point comes from the timing-point list. -/
theorem findActiveTiming_mem {tps : List TimingPoint} {t : PyQ} {tp : TimingPoint}
    (h : findActiveTiming tps t = some tp) : tp ∈ tps := by
  rw [findActiveTiming] at h
  have key : ∀ (l : List TimingPoint) (acc : Option TimingPoint),
      l.foldl (fun acc tp => if PyQ.le tp.time t && tp.uninherited then some tp else acc)
        acc = some tp → tp ∈ l ∨ acc = some tp := by
    intro l
    induction l with
    | nil => exact fun acc h => Or.inr h
    | cons a l ih =>
      intro acc h
      rw [List.foldl_cons] at h
      rcases ih _ h with hm | hacc
      · exact Or.inl (List.mem_cons_of_mem a hm)
      · revert hacc
        split_ifs with hcond
        · intro hacc
          rw [Option.some.injEq] at hacc
          exact Or.inl (hacc ▸ List.mem_cons_self a l)
        · exact fun hacc => Or.inr hacc
  rcases key tps none h with hm | habs
  · exact hm
  · exact Option.noConfusion habs

/-- The slider branch's output: type 2, the parsed time, a
positive-denominator pixel length, and an end time computed by
`sliderEndTime` from the stored fields. -/
theorem mkSlider_inv {tps : List TimingPoint} {sm : PyQ} {x y : ℤ} {t : PyQ}
    {hs : ℤ} {parts : List (List Char)} {obj : HitObject}
    (h : mkSlider tps sm x y t hs parts = some obj) :
    obj.type = 2 ∧ obj.time = t ∧ 0 < obj.pixel_length.d ∧
      ∃ e, obj.end_time = some e ∧
        sliderEndTime tps sm t obj.pixel_length obj.repeatCount = some e := by
  rw [mkSlider] at h
  split at h
  · exact Option.noConfusion h
  · rename_i sdata h5
    simp only [bind, Option.bind_eq_some, Option.some.injEq] at h
    obtain ⟨pts, hpts, rep, hrep, pl, hpl, endT, hend, heq⟩ := h
    rw [← heq]
    exact ⟨rfl, rfl, optFloat_d_pos (by decide) hpl, endT, rfl, hend⟩

/-- The spinner branch's output: type 8, the parsed time, and a present end
time. -/
theorem mkSpin_inv {t : PyQ} {hs : ℤ} {parts : List (List Char)} {obj : HitObject}
    (h : mkSpin t hs parts = some obj) :
    obj.type = 8 ∧ obj.time = t ∧ obj.end_time.isSome = true := by
  rw [mkSpin] at h
  simp only [bind, Option.bind_eq_some, Option.some.injEq] at h
  obtain ⟨endT, hendT, heq⟩ := h
  rw [← heq]
  exact ⟨rfl, rfl, rfl⟩

/-- Inversion of the hit-object line parser: the parsed time has a positive
denominator; sliders carry a `sliderEndTime`-computed end time over their
stored fields; spinners always carry an end time. -/
theorem parseHitObjectLine_inv {tps : List TimingPoint} {sm : PyQ}
    {line : String} {obj : HitObject}
    (h : parseHitObjectLine tps sm line = some obj) :
    0 < obj.time.d ∧
    (obj.type = 2 → 0 < obj.pixel_length.d ∧ ∃ e, obj.end_time = some e ∧
        sliderEndTime tps sm obj.time obj.pixel_length obj.repeatCount = some e) ∧
    (obj.type = 8 → obj.end_time.isSome = true) := by
  rw [parseHitObjectLine] at h
  simp only [] at h
  split_ifs at h with h1 h2
  simp only [bind, Option.bind_eq_some] at h
  obtain ⟨p0, hp0, x, hx, p1, hp1, y, hy, p2, hp2, t, ht, p3, hp3, objType, hoty, hsnd,
    hhs, hrest⟩ := h
  have htd : 0 < t.d := pyFloat_d_pos ht
  split_ifs at hrest with hb0 hb1 hb3
  · rw [Option.some.injEq] at hrest
    rw [← hrest]
    exact ⟨htd, fun habs => by simp at habs, fun habs => by simp at habs⟩
  · obtain ⟨hty, htime, hpld, e, het, hse⟩ := mkSlider_inv hrest
    refine ⟨htime ▸ htd, fun _ => ⟨hpld, e, het, htime ▸ hse⟩, fun habs => ?_⟩
    rw [hty] at habs
    exact absurd habs (by decide)
  · obtain ⟨hty, htime, hsome⟩ := mkSpin_inv hrest
    refine ⟨htime ▸ htd, fun habs => ?_, fun _ => hsome⟩
    rw [hty] at habs
    exact absurd habs (by decide)

/-- The rational value computed by `sliderEndTime`: with an active
uninherited timing point of positive beat length the duration is
`pixel_length / (100·sliderMultiplier) · beat_length · repeat`, otherwise
(no active point, or non-positive beat length) the fallback
`pixel_length / 100 · 600` is used. -/
theorem sliderEndTime_val {tps : List TimingPoint} {sm t pl e : PyQ} {rep : ℤ}
    (hsm : sm.d ≠ 0) (ht : t.d ≠ 0) (hpl : pl.d ≠ 0)
    (htps : ∀ tp ∈ tps, tp.beat_length.d ≠ 0)
    (h : sliderEndTime tps sm t pl rep = some e) :
    e.d ≠ 0 ∧
    ((∃ tp, findActiveTiming tps t = some tp ∧ 0 < PyQ.val tp.beat_length ∧
        PyQ.val e = PyQ.val t +
          PyQ.val pl / (100 * PyQ.val sm) * PyQ.val tp.beat_length * (rep : ℚ)) ∨
      ((findActiveTiming tps t = none ∨
          ∃ tp, findActiveTiming tps t = some tp ∧ PyQ.val tp.beat_length ≤ 0) ∧
        PyQ.val e = PyQ.val t + PyQ.val pl / 100 * 600)) := by
  have hfallback : ∀ e', (t.add ((pl.div 100).mul 600)) = e' →
      e'.d ≠ 0 ∧ PyQ.val e' = PyQ.val t + PyQ.val pl / 100 * 600 := by
    intro e' he'
    have hdiv : (pl.div 100).d ≠ 0 := by
      show pl.d * (100 : PyQ).n ≠ 0
      exact mul_ne_zero hpl (by decide)
    have hmul : ((pl.div 100).mul 600).d ≠ 0 := by
      show (pl.div 100).d * (600 : PyQ).d ≠ 0
      exact mul_ne_zero hdiv (by decide)
    constructor
    · rw [← he']
      show t.d * ((pl.div 100).mul 600).d ≠ 0
      exact mul_ne_zero ht hmul
    · rw [← he', PyQ.val_add ht hmul, PyQ.val_mul, PyQ.val_div, PyQ.val_ofNat,
        PyQ.val_ofNat]
      norm_num
  rw [sliderEndTime] at h
  split at h
  · rename_i tp hfa
    have hbl_d : tp.beat_length.d ≠ 0 := htps tp (findActiveTiming_mem hfa)
    split_ifs at h with hbl hz
    · -- positive beat length, nonzero multiplier
      rw [Option.some.injEq] at h
      have hdenom_d : (PyQ.mul 100 sm).d ≠ 0 := by
        show (100 : PyQ).d * sm.d ≠ 0
        exact mul_ne_zero (by decide) hsm
      have hdiv_d : (pl.div (PyQ.mul 100 sm)).d ≠ 0 := by
        show pl.d * (PyQ.mul 100 sm).n ≠ 0
        exact mul_ne_zero hpl hz
      have hm1_d : ((pl.div (PyQ.mul 100 sm)).mul tp.beat_length).d ≠ 0 := by
        show (pl.div (PyQ.mul 100 sm)).d * tp.beat_length.d ≠ 0
        exact mul_ne_zero hdiv_d hbl_d
      have hm2_d : (((pl.div (PyQ.mul 100 sm)).mul tp.beat_length).mul (PyQ.ofInt rep)).d ≠ 0 := by
        show ((pl.div (PyQ.mul 100 sm)).mul tp.beat_length).d * (PyQ.ofInt rep).d ≠ 0
        exact mul_ne_zero hm1_d one_ne_zero
      have hed : e.d ≠ 0 := by
        rw [← h]
        show t.d * _ ≠ 0
        exact mul_ne_zero ht hm2_d
      refine ⟨hed, Or.inl ⟨tp, hfa, ?_, ?_⟩⟩
      · have := (PyQ.lt_iff (show (0 : PyQ).d ≠ 0 by decide) hbl_d).mp hbl
        rwa [PyQ.val_ofNat, Nat.cast_zero] at this
      · rw [← h, PyQ.val_add ht hm2_d, PyQ.val_mul, PyQ.val_mul, PyQ.val_div,
          PyQ.val_mul, PyQ.val_ofNat, PyQ.val_ofInt]
        norm_num
    · -- non-positive beat length: fallback
      rw [Option.some.injEq] at h
      obtain ⟨hed, hval⟩ := hfallback e h
      refine ⟨hed, Or.inr ⟨Or.inr ⟨tp, hfa, ?_⟩, hval⟩⟩
      have hnot : ¬ (PyQ.val (0 : PyQ) < PyQ.val tp.beat_length) := fun hv =>
        hbl ((PyQ.lt_iff (show (0 : PyQ).d ≠ 0 by decide) hbl_d).mpr hv)
      rw [PyQ.val_ofNat, Nat.cast_zero] at hnot
      exact not_lt.mp hnot
  · rename_i hfa
    rw [Option.some.injEq] at h
    obtain ⟨hed, hval⟩ := hfallback e h
    exact ⟨hed, Or.inr ⟨Or.inl hfa, hval⟩⟩

/-- Every object produced by the hit-object line loop carries a parsed time
with a positive denominator. -/
theorem parseHitObjects_time_d {tps : List TimingPoint} {sm : PyQ}
    {lines : List String} {obj : HitObject}
    (h : obj ∈ parseHitObjects tps sm lines) : 0 < obj.time.d := by
  rw [parseHitObjects] at h
  obtain ⟨line, _, hline⟩ := List.mem_filterMap.mp h
  exact (parseHitObjectLine_inv hline).1

/-- Ordered insertion by the float comparison keeps a value-sorted list
value-sorted, as long as every time involved is a genuine float value
(nonzero denominator) — which makes the `PyQ` comparison agree with the
rational order. -/
theorem pairwise_val_orderedInsert (a : HitObject) (l : List HitObject)
    (ha : a.time.d ≠ 0) (hl : ∀ o ∈ l, o.time.d ≠ 0)
    (h : List.Pairwise (fun u v => PyQ.val u.time ≤ PyQ.val v.time) l) :
    List.Pairwise (fun u v => PyQ.val u.time ≤ PyQ.val v.time)
      (l.orderedInsert (fun u v => PyQ.le u.time v.time = true) a) := by
  induction l with
  | nil => simp
  | cons b l ih =>
    have hb : b.time.d ≠ 0 := hl b (List.mem_cons_self b l)
    rw [List.orderedInsert]
    split_ifs with hr
    · have hab : PyQ.val a.time ≤ PyQ.val b.time := (PyQ.le_iff ha hb).mp hr
      constructor
      · intro c hc
        rcases List.mem_cons.mp hc with rfl | hcl
        · exact hab
        · exact le_trans hab (List.rel_of_pairwise_cons h hcl)
      · exact h
    · have hba : PyQ.val b.time ≤ PyQ.val a.time := by
        have := (PyQ.le_iff ha hb).not.mp hr
        exact le_of_not_le this
      constructor
      · intro c hc
        rcases (List.mem_orderedInsert _ ).mp hc with rfl | hcl
        · exact hba
        · exact List.rel_of_pairwise_cons h hcl
      · exact ih (fun o ho => hl o (List.mem_cons_of_mem b ho)) h.of_cons

/-- The parser's final stable sort by time produces a timeline whose values
are non-decreasing, provided every time is a genuine float value. -/
theorem pairwise_val_sortByTime (l : List HitObject)
    (hl : ∀ o ∈ l, o.time.d ≠ 0) :
    List.Pairwise (fun u v => PyQ.val u.time ≤ PyQ.val v.time) (sortByTime l) := by
  induction l with
  | nil => simp [sortByTime]
  | cons a l ih =>
    rw [sortByTime, List.insertionSort]
    refine pairwise_val_orderedInsert a _ (hl a (List.mem_cons_self a l)) ?_ ?_
    · intro o ho
      exact hl o (List.mem_cons_of_mem a ((List.mem_insertionSort _).mp ho))
    · exact ih (fun o ho => hl o (List.mem_cons_of_mem a ho))

/-- Membership in the parsed chart is membership in the line-loop output. -/
theorem mem_parseChart {tLines hLines : List String} {sm : PyQ} {obj : HitObject}
    (h : obj ∈ parseChart tLines hLines sm) :
    obj ∈ parseHitObjects (parseTimingPoints tLines) sm hLines := by
  rw [parseChart, sortByTime] at h
  exact (List.mem_insertionSort _).mp h

/-! ### C4: the slider end-time formula -/

/-- C4 counterexample: with the chart's timing points listed out of
chronological order, the parser's tempo selection takes the LAST point in
parsed order with time ≤ the object time (here beatLength 500 at time 0),
not the latest-by-time point the claim describes (beatLength 300 at
time 1000): the parsed slider's endTime is 2000, while the claim's formula
with the latest point gives 1500 + 140/(100·1.4)·300·1 = 1800. -/
theorem C4_counterexample :
    (specLatestUninherited
        (parseTimingPoints ["1000,300,4,0,0,50,1,0", "0,500,4,0,0,50,1,0"]) ⟨1500, 1⟩).map
      (fun tp => PyQ.val tp.beat_length) = some 300 ∧
    (parseChart ["1000,300,4,0,0,50,1,0", "0,500,4,0,0,50,1,0"]
        ["0,0,1500,2,0,B|100:0,1,140"] ⟨7, 5⟩).map
      (fun o => (PyQ.val o.time, o.end_time.map PyQ.val)) = [(1500, some 2000)] ∧
    (2000 : ℚ) ≠ 1500 + 140 / (100 * (7 / 5)) * 300 * 1 := by
  refine ⟨?_, ?_, by norm_num⟩
  · have h : specLatestUninherited
        (parseTimingPoints ["1000,300,4,0,0,50,1,0", "0,500,4,0,0,50,1,0"]) ⟨1500, 1⟩ =
        some ⟨⟨1000, 1⟩, ⟨300, 1⟩, 4, 0, 0, 50, true, 0⟩ := by decide
    rw [h]
    norm_num [PyQ.val]
  · have h : parseChart ["1000,300,4,0,0,50,1,0", "0,500,4,0,0,50,1,0"]
        ["0,0,1500,2,0,B|100:0,1,140"] ⟨7, 5⟩ =
        [{x := 0, y := 0, time := ⟨1500, 1⟩, type := 2, hit_sound := 0,
          slider_type := some ['B'], slider_points := [(100, 0)], repeatCount := 1,
          pixel_length := ⟨140, 1⟩, end_time := some ⟨1400000, 700⟩}] := by decide
    rw [h]
    norm_num [PyQ.val]

/-- C4 (amended): a parsed slider's endTime is
`time + pixelLength/(100·sliderMultiplier) · beatLength · repeat`, where
`beatLength` comes from the LAST uninherited tempo point in parsed order
with time at or before the object's time (a point exactly at the object's
time counts) and is required positive; when no such point is selected or its
beatLength is ≤ 0, the fallback `time + pixelLength/100 · 600` is used.
With beatLength 500, sliderMultiplier 1.4, repeat 1 and length 140 the
parsed endTime − time is exactly 500 ms. -/
theorem C4_slider_end_time :
    (∀ (tLines : List String) (line : String) (sm : PyQ) (obj : HitObject),
      sm.d ≠ 0 →
      parseHitObjectLine (parseTimingPoints tLines) sm line = some obj →
      obj.type = 2 →
      ∃ e, obj.end_time = some e ∧
        ((∃ tp, findActiveTiming (parseTimingPoints tLines) obj.time = some tp ∧
            0 < PyQ.val tp.beat_length ∧
            PyQ.val e = PyQ.val obj.time +
              PyQ.val obj.pixel_length / (100 * PyQ.val sm) *
                PyQ.val tp.beat_length * (obj.repeatCount : ℚ)) ∨
          ((findActiveTiming (parseTimingPoints tLines) obj.time = none ∨
              ∃ tp, findActiveTiming (parseTimingPoints tLines) obj.time = some tp ∧
                PyQ.val tp.beat_length ≤ 0) ∧
            PyQ.val e = PyQ.val obj.time + PyQ.val obj.pixel_length / 100 * 600))) ∧
    (parseChart ["0,500,4,0,0,50,1,0"] ["0,0,1000,2,0,B|100:0,1,140"] ⟨7, 5⟩).map
      (fun o => (PyQ.val o.time, o.end_time.map PyQ.val)) = [(1000, some 1500)] := by
  constructor
  · intro tLines line sm obj hsm hparse htype
    obtain ⟨htd, hslider, _⟩ := parseHitObjectLine_inv hparse
    obtain ⟨hpld, e, hend, hse⟩ := hslider htype
    have htps : ∀ tp ∈ parseTimingPoints tLines, tp.beat_length.d ≠ 0 :=
      fun tp htp => ne_of_gt (parseTimingPoints_d_pos htp).2
    obtain ⟨_, hcases⟩ :=
      sliderEndTime_val hsm (ne_of_gt htd) (ne_of_gt hpld) htps hse
    exact ⟨e, hend, hcases⟩
  · have h : parseChart ["0,500,4,0,0,50,1,0"] ["0,0,1000,2,0,B|100:0,1,140"] ⟨7, 5⟩ =
        [{x := 0, y := 0, time := ⟨1000, 1⟩, type := 2, hit_sound := 0,
          slider_type := some ['B'], slider_points := [(100, 0)], repeatCount := 1,
          pixel_length := ⟨140, 1⟩, end_time := some ⟨1050000, 700⟩}] := by decide
    rw [h]
    norm_num [PyQ.val]

/-- Witness for C4 on a concrete chart (tempo 500 ms/beat at time 0,
slider at time 1000 with length 140 and slider multiplier 1.4). -/
theorem C4_slider_end_time_witness :
    ∃ e, rObj.end_time = some e ∧
      ((∃ tp, findActiveTiming (parseTimingPoints ["0,500,4,0,0,50,1,0"]) rObj.time = some tp ∧
          0 < PyQ.val tp.beat_length ∧
          PyQ.val e = PyQ.val rObj.time +
            PyQ.val rObj.pixel_length / (100 * PyQ.val ⟨7, 5⟩) *
              PyQ.val tp.beat_length * (rObj.repeatCount : ℚ)) ∨
        ((findActiveTiming (parseTimingPoints ["0,500,4,0,0,50,1,0"]) rObj.time = none ∨
            ∃ tp, findActiveTiming (parseTimingPoints ["0,500,4,0,0,50,1,0"]) rObj.time = some tp ∧
              PyQ.val tp.beat_length ≤ 0) ∧
          PyQ.val e = PyQ.val rObj.time + PyQ.val rObj.pixel_length / 100 * 600)) :=
  C4_slider_end_time.1 ["0,500,4,0,0,50,1,0"] "0,0,1000,2,0,B|100:0,1,140" ⟨7, 5⟩ rObj
    (by decide) (by decide) (by decide)

/-! ### C5: parsed-timeline invariants -/

/-- C5 counterexample: a slider line with no length field parses with
pixel length 0, so its endTime equals its time (not strictly greater), and
a spinner line whose explicit end field is 500 < 2000 parses with
endTime < time — both parts of the claimed strict invariant fail on
degenerate chart lines. -/
theorem C5_counterexample :
    (parseChart [] ["0,0,1000,2,0,B|50:50", "0,0,2000,8,0,500"] ⟨7, 5⟩).map
      (fun o => (o.type, PyQ.val o.time, o.end_time.map PyQ.val)) =
        [(2, 1000, some 1000), (8, 2000, some 500)] ∧
    ¬((1000 : ℚ) < 1000) ∧ ¬((2000 : ℚ) < 500) := by
  refine ⟨?_, by norm_num, by norm_num⟩
  have h : parseChart [] ["0,0,1000,2,0,B|50:50", "0,0,2000,8,0,500"] ⟨7, 5⟩ =
      [{x := 0, y := 0, time := ⟨1000, 1⟩, type := 2, hit_sound := 0,
        slider_type := some ['B'], slider_points := [(50, 50)], repeatCount := 1,
        pixel_length := ⟨0, 1⟩, end_time := some ⟨100000, 100⟩},
       {x := 256, y := 192, time := ⟨2000, 1⟩, type := 8, hit_sound := 0,
        slider_type := none, slider_points := [], repeatCount := 1,
        pixel_length := ⟨0, 1⟩, end_time := some ⟨500, 1⟩}] := by decide
  rw [h]
  norm_num [PyQ.val]

/-- C5 (amended): for every chart the parsed timeline is sorted by time
non-decreasing; every Hold with positive pixel length, repeat count at
least 1 and a positive slider multiplier has endTime strictly greater than
its time; every Spin carries an endTime (the explicit field, or time+1000
when absent), but endTime > time can fail for degenerate lines (zero/negative
length or an explicit spinner end at or before the start). -/
theorem C5_parse_invariants :
    (∀ (tLines hLines : List String) (sm : PyQ),
      List.Pairwise (fun u v => PyQ.val u.time ≤ PyQ.val v.time)
        (parseChart tLines hLines sm)) ∧
    (∀ (tLines hLines : List String) (sm : PyQ) (obj : HitObject),
      sm.d ≠ 0 → 0 < PyQ.val sm →
      obj ∈ parseChart tLines hLines sm → obj.type = 2 →
      0 < PyQ.val obj.pixel_length → 1 ≤ obj.repeatCount →
      ∃ e, obj.end_time = some e ∧ PyQ.val obj.time < PyQ.val e) ∧
    (∀ (tLines hLines : List String) (sm : PyQ) (obj : HitObject),
      obj ∈ parseChart tLines hLines sm → obj.type = 8 →
      obj.end_time.isSome = true) := by
  refine ⟨?_, ?_, ?_⟩
  · intro tLines hLines sm
    rw [parseChart]
    exact pairwise_val_sortByTime _
      (fun o ho => ne_of_gt (parseHitObjects_time_d ho))
  · intro tLines hLines sm obj hsm hsmpos hmem htype hpl hrep
    obtain ⟨line, _, hline⟩ := List.mem_filterMap.mp (mem_parseChart hmem)
    obtain ⟨htd, hslider, _⟩ := parseHitObjectLine_inv hline
    obtain ⟨hpld, e, hend, hse⟩ := hslider htype
    have htps : ∀ tp ∈ parseTimingPoints tLines, tp.beat_length.d ≠ 0 :=
      fun tp htp => ne_of_gt (parseTimingPoints_d_pos htp).2
    obtain ⟨_, hcases⟩ :=
      sliderEndTime_val hsm (ne_of_gt htd) (ne_of_gt hpld) htps hse
    refine ⟨e, hend, ?_⟩
    rcases hcases with ⟨tp, _, hblpos, hval⟩ | ⟨_, hval⟩
    · have hsm100 : (0 : ℚ) < 100 * PyQ.val sm := by positivity
      have hdur : (0 : ℚ) < PyQ.val obj.pixel_length / (100 * PyQ.val sm) *
          PyQ.val tp.beat_length * (obj.repeatCount : ℚ) := by
        have h1 : (0 : ℚ) < PyQ.val obj.pixel_length / (100 * PyQ.val sm) :=
          div_pos hpl hsm100
        have h2 : (0 : ℚ) < (obj.repeatCount : ℚ) := by
          have : (1 : ℚ) ≤ (obj.repeatCount : ℚ) := by exact_mod_cast hrep
          linarith
        exact mul_pos (mul_pos h1 hblpos) h2
      rw [hval]
      linarith
    · have hdur : (0 : ℚ) < PyQ.val obj.pixel_length / 100 * 600 := by positivity
      rw [hval]
      linarith
  · intro tLines hLines sm obj hmem htype
    obtain ⟨line, _, hline⟩ := List.mem_filterMap.mp (mem_parseChart hmem)
    exact (parseHitObjectLine_inv hline).2.2 htype

/-- Witness for C5 on the concrete slider chart: the parsed slider (length
140, repeat 1, multiplier 1.4) has an endTime strictly after its time. -/
theorem C5_parse_invariants_witness :
    ∃ e, rObj.end_time = some e ∧ PyQ.val rObj.time < PyQ.val e :=
  C5_parse_invariants.2.1 ["0,500,4,0,0,50,1,0"] ["0,0,1000,2,0,B|100:0,1,140"] ⟨7, 5⟩ rObj
    (by decide) (by norm_num [PyQ.val]) (by decide) (by decide)
    (by norm_num [PyQ.val, rObj]) (by decide)

end CursorBot
